import Mathlib

/-!
Verification development for the typr-omicron typing trainer.

The capture state machine is a shallow embedding of the keydown handler and
the word-count completion effect of src/frontend/src/TypingTest.jsx.
The analytics functions are shallow embeddings of the analysis functions of
src/frontend/src/Analyzer.jsx.

Modelling conventions:
- JavaScript numbers holding millisecond timestamps are modelled as Int;
  derived averages and percentages are modelled as exact rationals
  (the toFixed rounding of the display layer is not modelled).
- JavaScript Map objects and plain objects used as dictionaries are modelled
  as association lists with JS Map semantics: set replaces in place,
  delete removes the entry, iteration order is insertion order.
- Per-position arrays (userInput, status) are modelled as total functions
  from position to value; unwritten positions hold the JS initial value
  (null resp. the pending status), which matches the array initialisation
  and extension in the source.
- The audio side effects, the React rendering refs, the keyDownTimestamps
  map (written but never read) and the wall-clock timer of the duration
  mode are not part of the embedded state; the timer expiry and the manual
  End Session button are external end signals, modelled by endSessionState.
-/

namespace TyprOmicron

/-- Character status as written by TypingTest.jsx into statusRef. -/
inductive CharStatus where
  | pending
  | correct
  | incorrect
  | corrected
deriving DecidableEq

/-- Test configuration mode (testConfig.mode). -/
inductive Mode where
  | words
  | time
deriving DecidableEq

/-- Event kind (the type field of a logged event). -/
inductive EvKind where
  | keydown
  | keyup
deriving DecidableEq

/-- One logged keyboard event, as pushed into eventsRef by TypingTest.jsx and
as consumed from the session JSON by Analyzer.jsx.  The code field of the
source events is not used by any analysis and is omitted. -/
structure KeyEvent where
  kind : EvKind
  key : String
  timestamp : Int
  relativeTime : Int
  currentIndex : Nat
  expectedChar : String
deriving DecidableEq

/-- One element of the charStates array of a session record
(char, userBuffer, status), as consumed by Analyzer.jsx. -/
structure CharState where
  char : String
  userBuffer : Option String
  status : String
deriving DecidableEq

/-- A raw keydown signal as delivered by the browser: the key string, the
blocking modifier flags, the clock value Date.now() reads at that moment,
and the text the word generator would return if the duration-mode text
extension fires while handling this signal. -/
structure KeySignal where
  key : String
  ctrlKey : Bool
  metaKey : Bool
  altKey : Bool
  timestamp : Int
  gen : String

/-! ### Association list operations modelling JS Map / object dictionaries -/

/-- Lookup (Map.get / object indexing). -/
def getA {α : Type} : List (String × α) → String → Option α
  | [], _ => none
  | (k', v) :: rest, k => if k' = k then some v else getA rest k

/-- Insert or replace in place (Map.set / object assignment): an existing
key keeps its position, a new key is appended at the end. -/
def setA {α : Type} : List (String × α) → String → α → List (String × α)
  | [], k, v => [(k, v)]
  | (k', v') :: rest, k, v =>
    if k' = k then (k, v) :: rest else (k', v') :: setA rest k v

/-- Remove an entry (Map.delete). -/
def delA {α : Type} : List (String × α) → String → List (String × α)
  | [], _ => []
  | (k', v') :: rest, k => if k' = k then rest else (k', v') :: delA rest k

/-- Append a sample to the list bucketed under a key, creating the bucket
if absent (the idiom  if (!m[k]) m[k] = []; m[k].push(v)  of the source). -/
def pushSample {α : Type} (m : List (String × List α)) (k : String) (v : α) :
    List (String × List α) :=
  match getA m k with
  | some l => setA m k (l ++ [v])
  | none => setA m k [v]

/-! ### Capture state machine (TypingTest.jsx) -/

/-- The mutable state of one typing test, holding the configuration, the
target text, the cursor, the session lifecycle flags, the per-position
user input and status arrays, the event log and the running counters. -/
structure CaptureState where
  mode : Mode
  wordCount : Nat
  text : List Char
  currentIndex : Nat
  sessionStarted : Bool
  sessionActive : Bool
  userInput : Nat → Option String
  status : Nat → CharStatus
  events : List KeyEvent
  totalKeystrokes : Nat
  maxIndexReached : Nat
  firstTimeErrors : Finset Nat
  sessionStartTime : Option Int
  lastKeystrokeTime : Option Int

/-- Freshly initialized state for a given configuration and target text. -/
def initState (mode : Mode) (wordCount : Nat) (text : List Char) : CaptureState where
  mode := mode
  wordCount := wordCount
  text := text
  currentIndex := 0
  sessionStarted := false
  sessionActive := false
  userInput := fun _ => none
  status := fun _ => CharStatus.pending
  events := []
  totalKeystrokes := 0
  maxIndexReached := 0
  firstTimeErrors := ∅
  sessionStartTime := none
  lastKeystrokeTime := none

/-- The 1-character string  text[i]  of the source, the empty string when
the index is out of range (JS index out of range gives undefined; the
source only compares it or stores an empty expectedChar). -/
def expectedAt (text : List Char) (i : Nat) : String :=
  match text.get? i with
  | some c => String.singleton c
  | none => ""

/-- The printable-character test of the source:
e.key.length === 1 and not e.ctrlKey and not e.metaKey and not e.altKey. -/
def isPlainChar (e : KeySignal) : Bool :=
  e.key.length == 1 && !e.ctrlKey && !e.metaKey && !e.altKey

/-- Duration-mode text extension: when currentIndex > text.length - 50 the
source appends a space followed by 50 freshly generated words and extends
the userInput and status arrays with null / pending entries (subsumed here
by the total-function representation of those arrays). -/
def extendText (s : CaptureState) (e : KeySignal) : CaptureState :=
  if s.mode = Mode.time ∧ s.text.length < s.currentIndex + 50 then
    { s with text := s.text ++ ' ' :: e.gen.data }
  else s

/-- Append the keydown KeyEvent recorded for every processed signal. -/
def logKeydown (s : CaptureState) (e : KeySignal) : CaptureState :=
  { s with events := s.events ++
      [{ kind := EvKind.keydown
         key := e.key
         timestamp := e.timestamp
         relativeTime := match s.sessionStartTime with
           | some t0 => e.timestamp - t0
           | none => 0
         currentIndex := s.currentIndex
         expectedChar := expectedAt s.text s.currentIndex }] }

/-- Printable-character branch of the keydown handler: store the typed key,
set the status according to first attempt / retype and correctness, track
first-time errors and maxIndexReached on first attempts, advance cursor. -/
def applyChar (s : CaptureState) (e : KeySignal) : CaptureState :=
  if s.userInput s.currentIndex = none then
    { s with
      userInput := Function.update s.userInput s.currentIndex (some e.key)
      status := Function.update s.status s.currentIndex
        (if e.key = expectedAt s.text s.currentIndex
         then CharStatus.correct else CharStatus.incorrect)
      firstTimeErrors :=
        if e.key = expectedAt s.text s.currentIndex
        then s.firstTimeErrors else insert s.currentIndex s.firstTimeErrors
      maxIndexReached := max s.maxIndexReached (s.currentIndex + 1)
      totalKeystrokes := s.totalKeystrokes + 1
      currentIndex := s.currentIndex + 1 }
  else
    { s with
      userInput := Function.update s.userInput s.currentIndex (some e.key)
      status := Function.update s.status s.currentIndex
        (if e.key = expectedAt s.text s.currentIndex
         then CharStatus.corrected else CharStatus.incorrect)
      totalKeystrokes := s.totalKeystrokes + 1
      currentIndex := s.currentIndex + 1 }

/-- Dispatch of the keydown handler after the event was logged: the
Backspace branch moves the cursor back one position (leaving the vacated
outcome untouched) and counts the keystroke, the printable branch applies
the character, any other key changes nothing further. -/
def backspaceOrChar (s1 : CaptureState) (e : KeySignal) : CaptureState :=
  if e.key = "Backspace" then
    if 0 < s1.currentIndex then
      { s1 with currentIndex := s1.currentIndex - 1
                totalKeystrokes := s1.totalKeystrokes + 1 }
    else s1
  else if isPlainChar e then applyChar s1 e
  else s1

/-- Body of the keydown handler once the session is (or just became)
started: record the keystroke time, possibly extend the text, log the
event, then dispatch on Backspace / printable / other. -/
def processKey (s : CaptureState) (e : KeySignal) : CaptureState :=
  backspaceOrChar (logKeydown (extendText { s with lastKeystrokeTime := some e.timestamp } e) e) e

/-- The keydown handler handleKeyDown of TypingTest.jsx: guard against a
completed word-count test and against an ended session, apply the
deliberate-start policy while the session has not started, then process
the key. -/
def handleKeyDown (s : CaptureState) (e : KeySignal) : CaptureState :=
  if s.mode = Mode.words ∧ s.text.length ≤ s.currentIndex then s
  else if s.sessionStarted = true ∧ s.sessionActive = false then s
  else if s.sessionStarted then processKey s e
  else if isPlainChar e then
    if e.key = expectedAt s.text 0 then
      processKey
        { s with sessionStarted := true, sessionActive := true
                 sessionStartTime := some e.timestamp } e
    else s
  else s

/-- The keyup handler handleKeyUp of TypingTest.jsx: once the session has a
start time, append a keyup KeyEvent. -/
def handleKeyUp (s : CaptureState) (e : KeySignal) : CaptureState :=
  match s.sessionStartTime with
  | none => s
  | some t0 =>
    { s with events := s.events ++
        [{ kind := EvKind.keyup
           key := e.key
           timestamp := e.timestamp
           relativeTime := e.timestamp - t0
           currentIndex := s.currentIndex
           expectedChar := expectedAt s.text s.currentIndex }] }

/-- The word-count completion effect of TypingTest.jsx: in word-count mode,
while the session is active, end the session once maxIndexReached has
reached wordCount * 6 target characters. -/
def checkWordCompletion (s : CaptureState) : CaptureState :=
  if s.mode = Mode.words ∧ s.sessionActive = true ∧ s.wordCount * 6 ≤ s.maxIndexReached then
    { s with sessionActive := false }
  else s

/-- One full key-press transition: the keydown handler followed by the
word-count completion effect that React runs after the render the handler
triggers. -/
def step (s : CaptureState) (e : KeySignal) : CaptureState :=
  checkWordCompletion (handleKeyDown s e)

/-- Processing a whole sequence of key-press signals. -/
def runSignals (s : CaptureState) (sigs : List KeySignal) : CaptureState :=
  sigs.foldl step s

/-- External session end (End Session button or duration-mode timer expiry):
endSession sets sessionActive to false. -/
def endSessionState (s : CaptureState) : CaptureState :=
  { s with sessionActive := false }

/-- calculateAccuracy of TypingTest.jsx: 100 when maxReached is 0, otherwise
(maxReached - errors.size) / maxReached * 100, as an exact rational. -/
def calculateAccuracy (maxReached : Nat) (errors : Finset Nat) : ℚ :=
  if maxReached = 0 then 100
  else ((maxReached : ℚ) - (errors.card : ℚ)) / (maxReached : ℚ) * 100

/-- Session states reachable from a freshly initialized machine under
key-press signals, key-release signals and external end signals. -/
inductive Reachable : CaptureState → Prop where
  | init : ∀ mode wordCount text, Reachable (initState mode wordCount text)
  | press : ∀ s e, Reachable s → Reachable (step s e)
  | release : ∀ s e, Reachable s → Reachable (handleKeyUp s e)
  | ended : ∀ s, Reachable s → Reachable (endSessionState s)

/-! ### Projection lemmas for the capture helpers -/

@[simp] theorem extendText_mode (s : CaptureState) (e : KeySignal) :
    (extendText s e).mode = s.mode := by
  unfold extendText; split_ifs <;> rfl

@[simp] theorem extendText_wordCount (s : CaptureState) (e : KeySignal) :
    (extendText s e).wordCount = s.wordCount := by
  unfold extendText; split_ifs <;> rfl

@[simp] theorem extendText_currentIndex (s : CaptureState) (e : KeySignal) :
    (extendText s e).currentIndex = s.currentIndex := by
  unfold extendText; split_ifs <;> rfl

@[simp] theorem extendText_sessionStarted (s : CaptureState) (e : KeySignal) :
    (extendText s e).sessionStarted = s.sessionStarted := by
  unfold extendText; split_ifs <;> rfl

@[simp] theorem extendText_sessionActive (s : CaptureState) (e : KeySignal) :
    (extendText s e).sessionActive = s.sessionActive := by
  unfold extendText; split_ifs <;> rfl

@[simp] theorem extendText_userInput (s : CaptureState) (e : KeySignal) :
    (extendText s e).userInput = s.userInput := by
  unfold extendText; split_ifs <;> rfl

@[simp] theorem extendText_maxIndexReached (s : CaptureState) (e : KeySignal) :
    (extendText s e).maxIndexReached = s.maxIndexReached := by
  unfold extendText; split_ifs <;> rfl

@[simp] theorem extendText_firstTimeErrors (s : CaptureState) (e : KeySignal) :
    (extendText s e).firstTimeErrors = s.firstTimeErrors := by
  unfold extendText; split_ifs <;> rfl

@[simp] theorem logKeydown_mode (s : CaptureState) (e : KeySignal) :
    (logKeydown s e).mode = s.mode := rfl

@[simp] theorem logKeydown_wordCount (s : CaptureState) (e : KeySignal) :
    (logKeydown s e).wordCount = s.wordCount := rfl

@[simp] theorem logKeydown_currentIndex (s : CaptureState) (e : KeySignal) :
    (logKeydown s e).currentIndex = s.currentIndex := rfl

@[simp] theorem logKeydown_sessionStarted (s : CaptureState) (e : KeySignal) :
    (logKeydown s e).sessionStarted = s.sessionStarted := rfl

@[simp] theorem logKeydown_sessionActive (s : CaptureState) (e : KeySignal) :
    (logKeydown s e).sessionActive = s.sessionActive := rfl

@[simp] theorem logKeydown_userInput (s : CaptureState) (e : KeySignal) :
    (logKeydown s e).userInput = s.userInput := rfl

@[simp] theorem logKeydown_maxIndexReached (s : CaptureState) (e : KeySignal) :
    (logKeydown s e).maxIndexReached = s.maxIndexReached := rfl

@[simp] theorem logKeydown_firstTimeErrors (s : CaptureState) (e : KeySignal) :
    (logKeydown s e).firstTimeErrors = s.firstTimeErrors := rfl

@[simp] theorem applyChar_mode (s : CaptureState) (e : KeySignal) :
    (applyChar s e).mode = s.mode := by
  unfold applyChar; split_ifs <;> rfl

@[simp] theorem applyChar_wordCount (s : CaptureState) (e : KeySignal) :
    (applyChar s e).wordCount = s.wordCount := by
  unfold applyChar; split_ifs <;> rfl

@[simp] theorem applyChar_sessionStarted (s : CaptureState) (e : KeySignal) :
    (applyChar s e).sessionStarted = s.sessionStarted := by
  unfold applyChar; split_ifs <;> rfl

@[simp] theorem applyChar_sessionActive (s : CaptureState) (e : KeySignal) :
    (applyChar s e).sessionActive = s.sessionActive := by
  unfold applyChar; split_ifs <;> rfl

theorem maxIndexReached_le_applyChar (s : CaptureState) (e : KeySignal) :
    s.maxIndexReached ≤ (applyChar s e).maxIndexReached := by
  unfold applyChar; split_ifs <;> simp

theorem applyChar_errBound {s : CaptureState} (e : KeySignal)
    (h : ∀ i ∈ s.firstTimeErrors, i < s.maxIndexReached) :
    ∀ i ∈ (applyChar s e).firstTimeErrors, i < (applyChar s e).maxIndexReached := by
  unfold applyChar
  split_ifs <;> simp only [Finset.mem_insert] <;> intro i hi
  · exact lt_of_lt_of_le (h i hi) (le_max_left _ _)
  · rcases hi with rfl | hi
    · exact lt_of_lt_of_le (Nat.lt_succ_self _) (le_max_right _ _)
    · exact lt_of_lt_of_le (h i hi) (le_max_left _ _)
  · exact h i hi
  · exact h i hi

/-! ### Lemmas about the composed key handlers -/

theorem maxIndexReached_le_processKey (s : CaptureState) (e : KeySignal) :
    s.maxIndexReached ≤ (processKey s e).maxIndexReached := by
  unfold processKey backspaceOrChar
  split_ifs
  · simp
  · simp
  · exact le_trans (le_of_eq (by simp)) (maxIndexReached_le_applyChar _ _)
  · simp

theorem maxIndexReached_le_handleKeyDown (s : CaptureState) (e : KeySignal) :
    s.maxIndexReached ≤ (handleKeyDown s e).maxIndexReached := by
  unfold handleKeyDown
  split_ifs
  · exact le_refl _
  · exact le_refl _
  · exact maxIndexReached_le_processKey s e
  · exact maxIndexReached_le_processKey
      { s with sessionStarted := true, sessionActive := true
               sessionStartTime := some e.timestamp } e
  · exact le_refl _
  · exact le_refl _

theorem checkWordCompletion_maxIndexReached (s : CaptureState) :
    (checkWordCompletion s).maxIndexReached = s.maxIndexReached := by
  unfold checkWordCompletion
  split_ifs <;> rfl

theorem checkWordCompletion_firstTimeErrors (s : CaptureState) :
    (checkWordCompletion s).firstTimeErrors = s.firstTimeErrors := by
  unfold checkWordCompletion
  split_ifs <;> rfl

theorem maxIndexReached_le_step (s : CaptureState) (e : KeySignal) :
    s.maxIndexReached ≤ (step s e).maxIndexReached := by
  unfold step
  rw [checkWordCompletion_maxIndexReached]
  exact maxIndexReached_le_handleKeyDown s e

theorem maxIndexReached_le_runSignals (s : CaptureState) (sigs : List KeySignal) :
    s.maxIndexReached ≤ (runSignals s sigs).maxIndexReached := by
  induction sigs generalizing s with
  | nil => exact le_refl _
  | cons e rest ih =>
    exact le_trans (maxIndexReached_le_step s e) (ih (step s e))

/-- Every recorded first-time error position lies strictly below
maxIndexReached. -/
def ErrBound (s : CaptureState) : Prop :=
  ∀ i ∈ s.firstTimeErrors, i < s.maxIndexReached

theorem errBound_processKey {s : CaptureState} (e : KeySignal) (h : ErrBound s) :
    ErrBound (processKey s e) := by
  unfold ErrBound at h ⊢
  unfold processKey backspaceOrChar
  split_ifs
  · simpa using h
  · simpa using h
  · exact applyChar_errBound e (by simpa using h)
  · simpa using h

theorem errBound_handleKeyDown {s : CaptureState} (e : KeySignal) (h : ErrBound s) :
    ErrBound (handleKeyDown s e) := by
  unfold handleKeyDown
  split_ifs
  · exact h
  · exact h
  · exact errBound_processKey e h
  · exact errBound_processKey
      (s := { s with sessionStarted := true, sessionActive := true
                     sessionStartTime := some e.timestamp }) e h
  · exact h
  · exact h

theorem errBound_step {s : CaptureState} (e : KeySignal) (h : ErrBound s) :
    ErrBound (step s e) := by
  unfold step
  have h2 := errBound_handleKeyDown e h
  unfold ErrBound at h2 ⊢
  rw [checkWordCompletion_maxIndexReached, checkWordCompletion_firstTimeErrors]
  exact h2

@[simp] theorem handleKeyUp_firstTimeErrors (s : CaptureState) (e : KeySignal) :
    (handleKeyUp s e).firstTimeErrors = s.firstTimeErrors := by
  unfold handleKeyUp; cases s.sessionStartTime <;> rfl

@[simp] theorem handleKeyUp_maxIndexReached (s : CaptureState) (e : KeySignal) :
    (handleKeyUp s e).maxIndexReached = s.maxIndexReached := by
  unfold handleKeyUp; cases s.sessionStartTime <;> rfl

theorem errBound_reachable {s : CaptureState} (h : Reachable s) : ErrBound s := by
  induction h with
  | init mode wordCount text => intro i hi; simp [initState] at hi
  | press s e _ ih => exact errBound_step e ih
  | release s e _ ih =>
    unfold ErrBound at ih ⊢
    simpa using ih
  | ended s _ ih => exact ih

@[simp] theorem processKey_mode (s : CaptureState) (e : KeySignal) :
    (processKey s e).mode = s.mode := by
  unfold processKey backspaceOrChar
  split_ifs <;> simp

@[simp] theorem processKey_wordCount (s : CaptureState) (e : KeySignal) :
    (processKey s e).wordCount = s.wordCount := by
  unfold processKey backspaceOrChar
  split_ifs <;> simp

@[simp] theorem processKey_sessionActive (s : CaptureState) (e : KeySignal) :
    (processKey s e).sessionActive = s.sessionActive := by
  unfold processKey backspaceOrChar
  split_ifs <;> simp

theorem handleKeyDown_mode (s : CaptureState) (e : KeySignal) :
    (handleKeyDown s e).mode = s.mode := by
  unfold handleKeyDown
  split_ifs <;> simp

theorem handleKeyDown_wordCount (s : CaptureState) (e : KeySignal) :
    (handleKeyDown s e).wordCount = s.wordCount := by
  unfold handleKeyDown
  split_ifs <;> simp

theorem handleKeyDown_sessionActive_true (s : CaptureState) (e : KeySignal)
    (ha : s.sessionActive = true) :
    (handleKeyDown s e).sessionActive = true := by
  unfold handleKeyDown
  split_ifs <;> simp [ha]

/-! ### Claim theorems for the capture state machine -/

/-- C2: every key-press signal received while the capture state machine is
in the NotStarted state whose key is not exactly the expected character at
position 0 as a plain (modifier-free, single-character) press — which
covers modifier-only keys, modifier-held combinations and multi-character
composed input — leaves the whole state unchanged: no event is logged, no
outcome or counter is mutated, the machine stays NotStarted. -/
theorem C2_notStarted_discards (s : CaptureState) (e : KeySignal)
    (hstart : s.sessionStarted = false) (hactive : s.sessionActive = false)
    (hrej : ¬(isPlainChar e = true ∧ e.key = expectedAt s.text 0)) :
    step s e = s := by
  unfold step handleKeyDown checkWordCompletion
  split_ifs <;> first | rfl | simp_all

/-- Witness for C2 at a concrete NotStarted state and a concrete signal
(pressing the letter x while c is expected). -/
theorem C2_notStarted_discards_witness :
    step (initState Mode.words 50 "cat".data) ⟨"x", false, false, false, 0, ""⟩ =
      initState Mode.words 50 "cat".data :=
  C2_notStarted_discards (initState Mode.words 50 "cat".data)
    ⟨"x", false, false, false, 0, ""⟩ rfl rfl (by decide)

/-- C4: maxIndexReached never decreases: it is monotone under every single
key-press transition, and hence under every sequence of key-press
signals. -/
theorem C4_maxIndexReached_monotone :
    (∀ (s : CaptureState) (e : KeySignal),
        s.maxIndexReached ≤ (step s e).maxIndexReached) ∧
    (∀ (s : CaptureState) (sigs : List KeySignal),
        s.maxIndexReached ≤ (runSignals s sigs).maxIndexReached) :=
  ⟨maxIndexReached_le_step, maxIndexReached_le_runSignals⟩

/-- C3: in every reachable session state the number of first-time error
positions is at most maxIndexReached, hence the accuracy percentage lies
in the interval from 0 to 100, and it equals 100 when maxIndexReached is
zero.  The toFixed rounding of the source display is not modelled: the
accuracy is the exact rational value of the formula. -/
theorem C3_accuracy_bounds (s : CaptureState) (h : Reachable s) :
    s.firstTimeErrors.card ≤ s.maxIndexReached ∧
    0 ≤ calculateAccuracy s.maxIndexReached s.firstTimeErrors ∧
    calculateAccuracy s.maxIndexReached s.firstTimeErrors ≤ 100 ∧
    (s.maxIndexReached = 0 →
      calculateAccuracy s.maxIndexReached s.firstTimeErrors = 100) := by
  have hb := errBound_reachable h
  have hsub : s.firstTimeErrors ⊆ Finset.range s.maxIndexReached := fun i hi =>
    Finset.mem_range.mpr (hb i hi)
  have hcard : s.firstTimeErrors.card ≤ s.maxIndexReached := by
    simpa using Finset.card_le_card hsub
  have hc : (s.firstTimeErrors.card : ℚ) ≤ (s.maxIndexReached : ℚ) := by
    exact_mod_cast hcard
  refine ⟨hcard, ?_, ?_, ?_⟩
  · unfold calculateAccuracy
    split_ifs with h0
    · norm_num
    · have hm : (0 : ℚ) < (s.maxIndexReached : ℚ) := by
        exact_mod_cast Nat.pos_of_ne_zero h0
      have hnn : (0 : ℚ) ≤ ((s.maxIndexReached : ℚ) - (s.firstTimeErrors.card : ℚ)) /
          (s.maxIndexReached : ℚ) := div_nonneg (by linarith) (le_of_lt hm)
      nlinarith
  · unfold calculateAccuracy
    split_ifs with h0
    · norm_num
    · have hm : (0 : ℚ) < (s.maxIndexReached : ℚ) := by
        exact_mod_cast Nat.pos_of_ne_zero h0
      have hle1 : ((s.maxIndexReached : ℚ) - (s.firstTimeErrors.card : ℚ)) /
          (s.maxIndexReached : ℚ) ≤ 1 := (div_le_one hm).mpr (by linarith)
      nlinarith
  · intro h0
    unfold calculateAccuracy
    simp [h0]

/-- Witness for C3 at the freshly initialized state, which is reachable and
has maxIndexReached zero. -/
theorem C3_accuracy_bounds_witness :
    (initState Mode.words 10 "cat".data).firstTimeErrors.card ≤
      (initState Mode.words 10 "cat".data).maxIndexReached ∧
    0 ≤ calculateAccuracy (initState Mode.words 10 "cat".data).maxIndexReached
        (initState Mode.words 10 "cat".data).firstTimeErrors ∧
    calculateAccuracy (initState Mode.words 10 "cat".data).maxIndexReached
        (initState Mode.words 10 "cat".data).firstTimeErrors ≤ 100 ∧
    ((initState Mode.words 10 "cat".data).maxIndexReached = 0 →
      calculateAccuracy (initState Mode.words 10 "cat".data).maxIndexReached
        (initState Mode.words 10 "cat".data).firstTimeErrors = 100) :=
  C3_accuracy_bounds (initState Mode.words 10 "cat".data)
    (Reachable.init Mode.words 10 "cat".data)

/-- C10: in word-count mode, a key-press transition out of an active
session ends the session exactly when maxIndexReached has reached
wordCount * 6 target characters after the key is applied; the condition
involves only maxIndexReached and the configured word count, never the
length of the generated target text. -/
theorem C10_word_count_completion (s : CaptureState) (e : KeySignal)
    (hm : s.mode = Mode.words) (ha : s.sessionActive = true) :
    ((step s e).sessionActive = false ↔
      s.wordCount * 6 ≤ (step s e).maxIndexReached) := by
  have hm' : (handleKeyDown s e).mode = Mode.words := by
    rw [handleKeyDown_mode]; exact hm
  have ha' : (handleKeyDown s e).sessionActive = true :=
    handleKeyDown_sessionActive_true s e ha
  have hw' : (handleKeyDown s e).wordCount = s.wordCount :=
    handleKeyDown_wordCount s e
  unfold step checkWordCompletion
  split_ifs with hc
  · constructor
    · intro _
      have hle := hc.2.2
      rw [hw'] at hle
      simpa using hle
    · intro _; rfl
  · constructor
    · intro hfalse
      rw [ha'] at hfalse
      cases hfalse
    · intro hle
      exact absurd ⟨hm', ha', by rw [hw']; simpa using hle⟩ hc

/-- Concrete active word-count state for the C10 witness: word count 1
(target 6 characters), cursor at position 5, five characters already
entered on first attempts. -/
def c10State : CaptureState :=
  { initState Mode.words 1 "aaaaaaaa".data with
      sessionStarted := true
      sessionActive := true
      currentIndex := 5
      maxIndexReached := 5 }

/-- Witness for C10: pressing the sixth expected character at the state
above ends the session, in agreement with the equivalence. -/
theorem C10_word_count_completion_witness :
    ((step c10State ⟨"a", false, false, false, 0, ""⟩).sessionActive = false ↔
      c10State.wordCount * 6 ≤
        (step c10State ⟨"a", false, false, false, 0, ""⟩).maxIndexReached) ∧
    (step c10State ⟨"a", false, false, false, 0, ""⟩).sessionActive = false :=
  ⟨C10_word_count_completion c10State ⟨"a", false, false, false, 0, ""⟩ rfl rfl,
   by decide⟩

/-- The C1 key-press sequence on target text cat: press c, a, x,
Backspace, t, at times 0, 100, 200, 300, 400, with no modifiers held.
The generator supply of each signal is the empty string; the claimed
outcomes concern positions 0 to 2 and are independent of it. -/
def c1Signals : List KeySignal :=
  [⟨"c", false, false, false, 0, ""⟩,
   ⟨"a", false, false, false, 100, ""⟩,
   ⟨"x", false, false, false, 200, ""⟩,
   ⟨"Backspace", false, false, false, 300, ""⟩,
   ⟨"t", false, false, false, 400, ""⟩]

/-- The final state of the C1 scenario, in duration mode (word-count mode
additionally blocks all input once the cursor reaches the end of the
3-character text, so the Backspace and the retype would be discarded
there). -/
def c1Final : CaptureState :=
  runSignals (initState Mode.time 200 "cat".data) c1Signals

/-- State after the press of c in the C1 scenario. -/
def c1S1 : CaptureState where
  mode := Mode.time
  wordCount := 200
  text := "cat ".data
  currentIndex := 1
  sessionStarted := true
  sessionActive := true
  userInput := Function.update (fun _ => none) 0 (some "c")
  status := Function.update (fun _ => CharStatus.pending) 0 CharStatus.correct
  events := [⟨EvKind.keydown, "c", 0, 0, 0, "c"⟩]
  totalKeystrokes := 1
  maxIndexReached := 1
  firstTimeErrors := ∅
  sessionStartTime := some 0
  lastKeystrokeTime := some 0

/-- State after the press of a in the C1 scenario. -/
def c1S2 : CaptureState where
  mode := Mode.time
  wordCount := 200
  text := "cat  ".data
  currentIndex := 2
  sessionStarted := true
  sessionActive := true
  userInput := Function.update (Function.update (fun _ => none) 0 (some "c")) 1 (some "a")
  status := Function.update
    (Function.update (fun _ => CharStatus.pending) 0 CharStatus.correct) 1 CharStatus.correct
  events := [⟨EvKind.keydown, "c", 0, 0, 0, "c"⟩,
             ⟨EvKind.keydown, "a", 100, 100, 1, "a"⟩]
  totalKeystrokes := 2
  maxIndexReached := 2
  firstTimeErrors := ∅
  sessionStartTime := some 0
  lastKeystrokeTime := some 100

/-- State after the incorrect press of x in the C1 scenario. -/
def c1S3 : CaptureState where
  mode := Mode.time
  wordCount := 200
  text := "cat   ".data
  currentIndex := 3
  sessionStarted := true
  sessionActive := true
  userInput := Function.update
    (Function.update (Function.update (fun _ => none) 0 (some "c")) 1 (some "a")) 2 (some "x")
  status := Function.update (Function.update
    (Function.update (fun _ => CharStatus.pending) 0 CharStatus.correct) 1 CharStatus.correct)
    2 CharStatus.incorrect
  events := [⟨EvKind.keydown, "c", 0, 0, 0, "c"⟩,
             ⟨EvKind.keydown, "a", 100, 100, 1, "a"⟩,
             ⟨EvKind.keydown, "x", 200, 200, 2, "t"⟩]
  totalKeystrokes := 3
  maxIndexReached := 3
  firstTimeErrors := insert 2 ∅
  sessionStartTime := some 0
  lastKeystrokeTime := some 200

/-- State after the Backspace in the C1 scenario. -/
def c1S4 : CaptureState where
  mode := Mode.time
  wordCount := 200
  text := "cat    ".data
  currentIndex := 2
  sessionStarted := true
  sessionActive := true
  userInput := Function.update
    (Function.update (Function.update (fun _ => none) 0 (some "c")) 1 (some "a")) 2 (some "x")
  status := Function.update (Function.update
    (Function.update (fun _ => CharStatus.pending) 0 CharStatus.correct) 1 CharStatus.correct)
    2 CharStatus.incorrect
  events := [⟨EvKind.keydown, "c", 0, 0, 0, "c"⟩,
             ⟨EvKind.keydown, "a", 100, 100, 1, "a"⟩,
             ⟨EvKind.keydown, "x", 200, 200, 2, "t"⟩,
             ⟨EvKind.keydown, "Backspace", 300, 300, 3, " "⟩]
  totalKeystrokes := 4
  maxIndexReached := 3
  firstTimeErrors := insert 2 ∅
  sessionStartTime := some 0
  lastKeystrokeTime := some 300

/-- State after the corrective press of t in the C1 scenario. -/
def c1S5 : CaptureState where
  mode := Mode.time
  wordCount := 200
  text := "cat     ".data
  currentIndex := 3
  sessionStarted := true
  sessionActive := true
  userInput := Function.update (Function.update
    (Function.update (Function.update (fun _ => none) 0 (some "c")) 1 (some "a")) 2 (some "x"))
    2 (some "t")
  status := Function.update (Function.update (Function.update
    (Function.update (fun _ => CharStatus.pending) 0 CharStatus.correct) 1 CharStatus.correct)
    2 CharStatus.incorrect) 2 CharStatus.corrected
  events := [⟨EvKind.keydown, "c", 0, 0, 0, "c"⟩,
             ⟨EvKind.keydown, "a", 100, 100, 1, "a"⟩,
             ⟨EvKind.keydown, "x", 200, 200, 2, "t"⟩,
             ⟨EvKind.keydown, "Backspace", 300, 300, 3, " "⟩,
             ⟨EvKind.keydown, "t", 400, 400, 2, "t"⟩]
  totalKeystrokes := 5
  maxIndexReached := 3
  firstTimeErrors := insert 2 ∅
  sessionStartTime := some 0
  lastKeystrokeTime := some 400

/-- C1: starting from a freshly initialized machine with target text cat,
the presses c, a, x, Backspace, t yield outcomes Correct, Correct,
Corrected at positions 0, 1, 2, maxIndexReached 3, first-time error
position set containing exactly 2, and accuracy 100 * (3 - 1) / 3, which
is the exact rational 200 / 3 (about 66.7). -/
theorem C1_end_to_end_cat :
    c1Final.status 0 = CharStatus.correct ∧
    c1Final.status 1 = CharStatus.correct ∧
    c1Final.status 2 = CharStatus.corrected ∧
    c1Final.maxIndexReached = 3 ∧
    c1Final.firstTimeErrors = {2} ∧
    calculateAccuracy c1Final.maxIndexReached c1Final.firstTimeErrors = 200 / 3 := by
  have h1 : step (initState Mode.time 200 "cat".data)
      ⟨"c", false, false, false, 0, ""⟩ = c1S1 := by rfl
  have h2 : step c1S1 ⟨"a", false, false, false, 100, ""⟩ = c1S2 := by rfl
  have h3 : step c1S2 ⟨"x", false, false, false, 200, ""⟩ = c1S3 := by rfl
  have h4 : step c1S3 ⟨"Backspace", false, false, false, 300, ""⟩ = c1S4 := by rfl
  have h5 : step c1S4 ⟨"t", false, false, false, 400, ""⟩ = c1S5 := by rfl
  have hrun : c1Final = c1S5 := by
    unfold c1Final runSignals c1Signals
    rw [List.foldl_cons, h1, List.foldl_cons, h2, List.foldl_cons, h3,
        List.foldl_cons, h4, List.foldl_cons, h5, List.foldl_nil]
  rw [hrun]
  have hcard : c1S5.firstTimeErrors.card = 1 := by decide
  have hmax : c1S5.maxIndexReached = 3 := rfl
  refine ⟨by decide, by decide, by decide, rfl, by decide, ?_⟩
  rw [hmax]
  unfold calculateAccuracy
  rw [hcard]
  norm_num

/-! ### Analytics engine (Analyzer.jsx)

The key-to-finger table fingermap.json is data referenced by the source
but not present under src; every analysis function that consults it is
therefore parameterized by an abstract lookup fl from lower-case key
strings to finger codes, exactly the shape the table provides. -/

/-- Arithmetic mean of a list of integer samples, as an exact rational. -/
def meanI (l : List Int) : ℚ := ((l.sum : Int) : ℚ) / (l.length : ℚ)

/-- Arithmetic mean of a list of rational values. -/
def meanQ (l : List ℚ) : ℚ := l.sum / (l.length : ℚ)

/-- The JS toLowerCase call of getFingerForKey, embedded at the character
list level (each character lower-cased in place), which coincides with it
on the key strings involved. -/
def toLowerStr (s : String) : String := ⟨s.data.map Char.toLower⟩

/-- getFingerForKey of Analyzer.jsx: look the lower-cased key up in the
finger table; a missing key yields no finger. -/
def getFingerForKey (fl : String → Option String) (key : String) : Option String :=
  fl (toLowerStr key)

/-- Fold state of calculateDwellTimeByKey: the per-key dwell sample
buckets and the pending keydown timestamp map. -/
structure DwellAcc where
  dwellTimes : List (String × List Int)
  keyDownMap : List (String × Int)

/-- One event of the calculateDwellTimeByKey scan: a keydown stores (or
overwrites) the pending timestamp of its key; a keyup with a pending
timestamp for its key emits the dwell sample and clears the pending
entry, a keyup without one is dropped. -/
def dwellStep (st : DwellAcc) (e : KeyEvent) : DwellAcc :=
  match e.kind with
  | EvKind.keydown => { st with keyDownMap := setA st.keyDownMap e.key e.timestamp }
  | EvKind.keyup =>
    match getA st.keyDownMap e.key with
    | some downTime =>
      { dwellTimes := pushSample st.dwellTimes e.key (e.timestamp - downTime)
        keyDownMap := delA st.keyDownMap e.key }
    | none => st

/-- calculateDwellTimeByKey of Analyzer.jsx: scan the events, then map
each per-key sample bucket to its arithmetic mean. -/
def calculateDwellTimeByKey (events : List KeyEvent) : List (String × ℚ) :=
  ((events.foldl dwellStep ⟨[], []⟩).dwellTimes).map (fun p => (p.1, meanI p.2))

/-- One entry of the per-finger grouping shared by the dwell and flight
by-finger functions: push the per-key value into the bucket of the finger
of its key, dropping keys with no finger. -/
def fingerFold (fl : String → Option String) (acc : List (String × List ℚ))
    (p : String × ℚ) : List (String × List ℚ) :=
  match getFingerForKey fl p.1 with
  | some finger => pushSample acc finger p.2
  | none => acc

/-- calculateDwellTimeByFinger of Analyzer.jsx: group the per-key mean
values by the finger of the key, dropping keys with no finger, and take
the arithmetic mean of each finger bucket. -/
def calculateDwellTimeByFinger (fl : String → Option String)
    (dwellByKey : List (String × ℚ)) : List (String × ℚ) :=
  (dwellByKey.foldl (fingerFold fl) []).map (fun p => (p.1, meanQ p.2))

/-- Fold state of calculateFlightTimeByKey: per-key flight sample buckets
plus the time and key of the last keyup seen. -/
structure FlightAcc where
  flightTimes : List (String × List Int)
  lastKeyUpTime : Option Int
  lastKey : Option String

/-- One event of the calculateFlightTimeByKey scan: a keydown after at
least one keyup emits the flight sample under the arriving key; a keyup
updates the last-release time and key. -/
def flightStep (st : FlightAcc) (e : KeyEvent) : FlightAcc :=
  match e.kind with
  | EvKind.keydown =>
    match st.lastKeyUpTime, st.lastKey with
    | some upTime, some _ =>
      { st with flightTimes := pushSample st.flightTimes e.key (e.timestamp - upTime) }
    | _, _ => st
  | EvKind.keyup => { st with lastKeyUpTime := some e.timestamp, lastKey := some e.key }

/-- calculateFlightTimeByKey of Analyzer.jsx. -/
def calculateFlightTimeByKey (events : List KeyEvent) : List (String × ℚ) :=
  ((events.foldl flightStep ⟨[], none, none⟩).flightTimes).map (fun p => (p.1, meanI p.2))

/-- calculateFlightTimeByFinger of Analyzer.jsx; its body is the same
grouping and averaging of per-key means as the dwell variant. -/
def calculateFlightTimeByFinger (fl : String → Option String)
    (flightByKey : List (String × ℚ)) : List (String × ℚ) :=
  (flightByKey.foldl (fingerFold fl) []).map (fun p => (p.1, meanQ p.2))

/-- Collected data of one digraph pair: its latency samples, both
characters and both fingers. -/
structure DigraphData where
  times : List Int
  char1 : String
  char2 : String
  fromFinger : Option String
  toFinger : Option String
deriving DecidableEq

/-- Fold state of the digraph scan. -/
structure DigraphAcc where
  digraphTimes : List (String × DigraphData)
  lastKeyUpTime : Option Int
  lastChar : Option String

/-- The validity test of the digraph scan for a keydown event: the
expected character is a single character, the charStates ledger is
present, and the cursor position of the event is a known ledger
position. -/
def isValidDigraphChar (charStates : Option (List CharState)) (e : KeyEvent) : Bool :=
  e.expectedChar.length == 1 &&
    (match charStates with
     | some cs => decide (e.currentIndex < cs.length)
     | none => false)

/-- Record one digraph latency sample, initializing the pair entry with
both characters and fingers on first occurrence. -/
def pushDigraph (fl : String → Option String) (m : List (String × DigraphData))
    (lastChar currentChar : String) (flightTime : Int) : List (String × DigraphData) :=
  match getA m (lastChar ++ currentChar) with
  | some d => setA m (lastChar ++ currentChar) { d with times := d.times ++ [flightTime] }
  | none => setA m (lastChar ++ currentChar)
      { times := [flightTime]
        char1 := lastChar
        char2 := currentChar
        fromFinger := getFingerForKey fl lastChar
        toFinger := getFingerForKey fl currentChar }

/-- One event of the calculateDigraphLatency scan. -/
def digraphStep (fl : String → Option String) (charStates : Option (List CharState))
    (st : DigraphAcc) (e : KeyEvent) : DigraphAcc :=
  match e.kind with
  | EvKind.keydown =>
    let valid := isValidDigraphChar charStates e
    let st1 :=
      match st.lastKeyUpTime, st.lastChar with
      | some upTime, some lastChar =>
        if valid && !(lastChar == "Backspace") && lastChar.length == 1 then
          { st with digraphTimes :=
              pushDigraph fl st.digraphTimes lastChar e.expectedChar (e.timestamp - upTime) }
        else st
      | _, _ => st
    if valid then { st1 with lastChar := some e.expectedChar } else st1
  | EvKind.keyup =>
    if e.key.length == 1 && !(e.key == "Backspace") then
      { st with lastKeyUpTime := some e.timestamp }
    else st

/-- The digraph pair collection phase of calculateDigraphLatency. -/
def digraphCollect (fl : String → Option String) (events : List KeyEvent)
    (charStates : Option (List CharState)) : List (String × DigraphData) :=
  (events.foldl (digraphStep fl charStates) ⟨[], none, none⟩).digraphTimes

/-- One row of the digraph latency result.  The display-only fingerChange
label of the source is omitted. -/
structure DigraphStat where
  pair : String
  char1 : String
  char2 : String
  avgLatency : ℚ
  count : Nat
  fromFinger : Option String
  toFinger : Option String
  sameFinger : Bool
deriving DecidableEq

/-- Turn one collected pair entry into its result row: mean latency,
sample count, fingers, and the same-finger flag (both fingers equal and
known). -/
def mkDigraphStat (p : String × DigraphData) : DigraphStat where
  pair := p.1
  char1 := p.2.char1
  char2 := p.2.char2
  avgLatency := meanI p.2.times
  count := p.2.times.length
  fromFinger := p.2.fromFinger
  toFinger := p.2.toFinger
  sameFinger := p.2.fromFinger == p.2.toFinger && p.2.fromFinger.isSome

/-- The descending-by-mean-latency order of the digraph result list. -/
def latencyDescending (a b : DigraphStat) : Prop := b.avgLatency ≤ a.avgLatency

instance : DecidableRel latencyDescending := fun a b =>
  inferInstanceAs (Decidable (b.avgLatency ≤ a.avgLatency))

instance : IsTotal DigraphStat latencyDescending :=
  ⟨fun a b => le_total b.avgLatency a.avgLatency⟩

instance : IsTrans DigraphStat latencyDescending :=
  ⟨fun _ _ _ h1 h2 => le_trans h2 h1⟩

/-- calculateDigraphLatency of Analyzer.jsx: collect the pair samples,
build the per-pair rows, and sort them slowest first. -/
def calculateDigraphLatency (fl : String → Option String) (events : List KeyEvent)
    (charStates : Option (List CharState)) : List DigraphStat :=
  List.insertionSort latencyDescending ((digraphCollect fl events charStates).map mkDigraphStat)

/-- One group of the error confusion matrix: the expected character, the
typed alternatives with their counts (sorted by descending count), and
the total error count of the group. -/
structure ConfusionEntry where
  expected : String
  actualChars : List (String × Nat)
  totalErrors : Nat
deriving DecidableEq

/-- Count one (expected, actual) error observation in the nested
confusion map. -/
def bumpConfusion (m : List (String × List (String × Nat)))
    (expected actual : String) : List (String × List (String × Nat)) :=
  match getA m expected with
  | some inner =>
    match getA inner actual with
    | some n => setA m expected (setA inner actual (n + 1))
    | none => setA m expected (setA inner actual 1)
  | none => setA m expected [(actual, 1)]

/-- Descending-count order of the typed alternatives. -/
def countDescending (a b : String × Nat) : Prop := b.2 ≤ a.2

instance : DecidableRel countDescending := fun a b =>
  inferInstanceAs (Decidable (b.2 ≤ a.2))

/-- Descending-total order of the confusion groups. -/
def totalErrorsDescending (a b : ConfusionEntry) : Prop := b.totalErrors ≤ a.totalErrors

instance : DecidableRel totalErrorsDescending := fun a b =>
  inferInstanceAs (Decidable (b.totalErrors ≤ a.totalErrors))

/-- calculateErrorConfusionMatrix of Analyzer.jsx: absent when the
charStates ledger is missing; otherwise count, for every position whose
final status is incorrect and whose expected and typed characters are
present and differ, the (expected, typed) pair, then produce the groups
sorted by descending total with alternatives sorted by descending count;
absent again when no error was counted. -/
def calculateErrorConfusionMatrix (charStates : Option (List CharState)) :
    Option (List ConfusionEntry) :=
  match charStates with
  | none => none
  | some cs =>
    let confusionMap := cs.foldl (fun acc c =>
      if c.status = "incorrect" then
        match c.userBuffer with
        | some actual =>
          if c.char ≠ "" ∧ actual ≠ "" ∧ c.char ≠ actual then bumpConfusion acc c.char actual
          else acc
        | none => acc
      else acc) []
    let confusionData := confusionMap.map (fun p =>
      let actualChars := List.insertionSort countDescending p.2
      { expected := p.1
        actualChars := actualChars
        totalErrors := (actualChars.map Prod.snd).sum : ConfusionEntry })
    let sorted := List.insertionSort totalErrorsDescending confusionData
    if 0 < sorted.length then some sorted else none

/-- One sample of the rhythm series. -/
structure RhythmSample where
  sessionTime : Int
  interval : Int
  char : String
deriving DecidableEq

/-- Fold state of the rhythm scan. -/
structure RhythmAcc where
  intervals : List RhythmSample
  lastKeydownTime : Option Int
  sessionStartTime : Option Int

/-- One event of the calculateRhythmData scan: only keydown events at a
known ledger position whose final status is correct and whose key is a
single character are clean; the first clean press fixes the series start,
every later clean press emits the gap from the previous clean press. -/
def rhythmStep (charStates : List CharState) (st : RhythmAcc) (e : KeyEvent) : RhythmAcc :=
  match e.kind with
  | EvKind.keydown =>
    match charStates.get? e.currentIndex with
    | some charState =>
      if charState.status = "correct" ∧ e.key ≠ "" ∧ e.key.length = 1 then
        let start := match st.sessionStartTime with
          | some t => t
          | none => e.timestamp
        let intervals := match st.lastKeydownTime with
          | some last =>
            st.intervals ++ [⟨e.timestamp - start, e.timestamp - last, e.expectedChar⟩]
          | none => st.intervals
        { intervals := intervals
          lastKeydownTime := some e.timestamp
          sessionStartTime := some start }
      else st
    | none => st
  | EvKind.keyup => st

/-- calculateRhythmData of Analyzer.jsx: absent when the events or the
charStates ledger are missing, or when fewer than two clean presses
exist. -/
def calculateRhythmData (events : Option (List KeyEvent))
    (charStates : Option (List CharState)) : Option (List RhythmSample) :=
  match events, charStates with
  | some evs, some cs =>
    let res := (evs.foldl (rhythmStep cs) ⟨[], none, none⟩).intervals
    if 0 < res.length then some res else none
  | _, _ => none

/-- The shift-cost summary. -/
structure ShiftPenalty where
  avgUppercase : ℚ
  avgLowercase : ℚ
  penalty : ℚ
  percentSlower : ℚ
  uppercaseCount : Nat
  lowercaseCount : Nat
deriving DecidableEq

/-- Fold state of the shift-cost scan. -/
structure ShiftAcc where
  uppercaseIntervals : List Int
  lowercaseIntervals : List Int
  lastKeydownTime : Option Int

/-- One event of the calculateShiftPenalty scan: keydown events of single
alphabetic characters contribute the interval from the previous such
press, bucketed by the case of the arriving character. -/
def shiftStep (st : ShiftAcc) (e : KeyEvent) : ShiftAcc :=
  match e.kind with
  | EvKind.keydown =>
    if e.key ≠ "" ∧ e.key.length = 1 ∧ e.key.data.any Char.isAlpha then
      let st1 := match st.lastKeydownTime with
        | some last =>
          if e.key = e.key.toUpper ∧ e.key ≠ e.key.toLower then
            { st with uppercaseIntervals := st.uppercaseIntervals ++ [e.timestamp - last] }
          else if e.key = e.key.toLower then
            { st with lowercaseIntervals := st.lowercaseIntervals ++ [e.timestamp - last] }
          else st
        | none => st
      { st1 with lastKeydownTime := some e.timestamp }
    else st
  | EvKind.keyup => st

/-- calculateShiftPenalty of Analyzer.jsx. -/
def calculateShiftPenalty (events : Option (List KeyEvent)) : Option ShiftPenalty :=
  match events with
  | none => none
  | some evs =>
    let st := evs.foldl shiftStep ⟨[], [], none⟩
    if st.uppercaseIntervals.length = 0 ∧ st.lowercaseIntervals.length = 0 then none
    else
      let avgUppercase := if 0 < st.uppercaseIntervals.length
        then meanI st.uppercaseIntervals else 0
      let avgLowercase := if 0 < st.lowercaseIntervals.length
        then meanI st.lowercaseIntervals else 0
      let penalty := avgUppercase - avgLowercase
      let percentSlower := if 0 < avgLowercase then penalty / avgLowercase * 100 else 0
      some
        { avgUppercase := avgUppercase
          avgLowercase := avgLowercase
          penalty := penalty
          percentSlower := percentSlower
          uppercaseCount := st.uppercaseIntervals.length
          lowercaseCount := st.lowercaseIntervals.length }

/-- One session record as consumed by the analytics entry point; a missing
or non-sequence field of the uploaded JSON is an absent Option. -/
structure SessionData where
  events : Option (List KeyEvent)
  charStates : Option (List CharState)

/-- The six analysis views computed by the entry point.  The basic
statistics panel of the source only reformats precomputed summary fields
of the record and is not one of the analysis views; it is not modelled. -/
structure AnalysisResults where
  dwellTimeByKey : List (String × ℚ)
  dwellTimeByFinger : List (String × ℚ)
  flightTimeByKey : List (String × ℚ)
  flightTimeByFinger : List (String × ℚ)
  digraphLatency : List DigraphStat
  errorConfusionMatrix : Option (List ConfusionEntry)
  rhythmData : Option (List RhythmSample)
  shiftPenalty : Option ShiftPenalty

/-- analyzeData of Analyzer.jsx: a record without a well-formed events
sequence is rejected with an error before any view is computed; otherwise
all views are computed, the charStates-dependent ones degrading to absent
results on a missing ledger. -/
def analyzeData (fl : String → Option String) (data : SessionData) :
    Except String AnalysisResults :=
  match data.events with
  | none => Except.error "Invalid session data format: missing or invalid events array"
  | some events =>
    let dwellByKey := calculateDwellTimeByKey events
    let flightByKey := calculateFlightTimeByKey events
    Except.ok
      { dwellTimeByKey := dwellByKey
        dwellTimeByFinger := calculateDwellTimeByFinger fl dwellByKey
        flightTimeByKey := flightByKey
        flightTimeByFinger := calculateFlightTimeByFinger fl flightByKey
        digraphLatency := calculateDigraphLatency fl events data.charStates
        errorConfusionMatrix := calculateErrorConfusionMatrix data.charStates
        rhythmData := calculateRhythmData (some events) data.charStates
        shiftPenalty := calculateShiftPenalty (some events) }

/-! ### Lemmas about the association list operations -/

theorem getA_setA {α : Type} (m : List (String × α)) (k k' : String) (v : α) :
    getA (setA m k v) k' = if k = k' then some v else getA m k' := by
  induction m with
  | nil =>
    by_cases h : k = k' <;> simp [setA, getA, h]
  | cons p rest ih =>
    obtain ⟨pk, pv⟩ := p
    by_cases h1 : pk = k
    · subst h1
      by_cases h2 : pk = k' <;> simp [setA, getA, h2]
    · by_cases h2 : pk = k'
      · subst h2
        have : ¬ k = pk := fun h => h1 h.symm
        simp [setA, getA, h1, this]
      · simp [setA, getA, h1, h2, ih]

theorem getA_eq_none_of_not_mem {α : Type} (m : List (String × α)) (k : String)
    (h : k ∉ m.map Prod.fst) : getA m k = none := by
  induction m with
  | nil => rfl
  | cons p rest ih =>
    obtain ⟨pk, pv⟩ := p
    simp only [List.map_cons, List.mem_cons] at h
    push_neg at h
    have : ¬ pk = k := fun hk => h.1 hk.symm
    simp [getA, this, ih h.2]

theorem getA_delA {α : Type} (m : List (String × α)) (k k' : String)
    (hnd : (m.map Prod.fst).Nodup) :
    getA (delA m k) k' = if k = k' then none else getA m k' := by
  induction m with
  | nil => by_cases h : k = k' <;> simp [delA, getA, h]
  | cons p rest ih =>
    obtain ⟨pk, pv⟩ := p
    simp only [List.map_cons, List.nodup_cons] at hnd
    by_cases h1 : pk = k
    · subst h1
      by_cases h2 : pk = k'
      · subst h2
        simp [delA, getA_eq_none_of_not_mem rest pk hnd.1]
      · simp [delA, getA, h2]
    · by_cases h2 : pk = k'
      · subst h2
        have : ¬ k = pk := fun h => h1 h.symm
        simp [delA, getA, h1, this]
      · simp [delA, getA, h1, h2, ih hnd.2]

theorem keys_setA {α : Type} (m : List (String × α)) (k : String) (v : α) :
    (setA m k v).map Prod.fst =
      if k ∈ m.map Prod.fst then m.map Prod.fst else m.map Prod.fst ++ [k] := by
  induction m with
  | nil => simp [setA]
  | cons p rest ih =>
    obtain ⟨pk, pv⟩ := p
    by_cases h1 : pk = k
    · subst h1
      simp [setA]
    · have hne : ¬ k = pk := fun h => h1 h.symm
      by_cases h2 : k ∈ rest.map Prod.fst <;>
        simp [setA, h1, hne, h2, ih]

theorem nodup_keys_setA {α : Type} (m : List (String × α)) (k : String) (v : α)
    (hnd : (m.map Prod.fst).Nodup) : ((setA m k v).map Prod.fst).Nodup := by
  rw [keys_setA]
  split_ifs with h
  · exact hnd
  · rw [List.nodup_append]
    refine ⟨hnd, List.nodup_singleton k, ?_⟩
    intro a ha hb
    simp only [List.mem_singleton] at hb
    subst hb
    exact h ha

theorem keys_delA_sublist {α : Type} (m : List (String × α)) (k : String) :
    ((delA m k).map Prod.fst).Sublist (m.map Prod.fst) := by
  induction m with
  | nil => simp [delA]
  | cons p rest ih =>
    obtain ⟨pk, pv⟩ := p
    by_cases h1 : pk = k
    · simp only [delA, if_pos h1, List.map_cons]
      exact List.sublist_cons_of_sublist _ (List.Sublist.refl _)
    · simp only [delA, if_neg h1, List.map_cons]
      exact List.Sublist.cons₂ _ ih

theorem nodup_keys_delA {α : Type} (m : List (String × α)) (k : String)
    (hnd : (m.map Prod.fst).Nodup) : ((delA m k).map Prod.fst).Nodup :=
  List.Nodup.sublist (keys_delA_sublist m k) hnd

theorem getA_pushSample_self {α : Type} (m : List (String × List α)) (k : String) (v : α) :
    getA (pushSample m k v) k = some ((getA m k).getD [] ++ [v]) := by
  unfold pushSample
  cases h : getA m k <;> simp [h, getA_setA]

theorem getA_pushSample_ne {α : Type} (m : List (String × List α)) (k k' : String) (v : α)
    (h : ¬ k = k') : getA (pushSample m k v) k' = getA m k' := by
  unfold pushSample
  cases hm : getA m k <;> simp [getA_setA, h]

theorem nodup_keys_pushSample {α : Type} (m : List (String × List α)) (k : String) (v : α)
    (hnd : (m.map Prod.fst).Nodup) : ((pushSample m k v).map Prod.fst).Nodup := by
  unfold pushSample
  cases getA m k <;> exact nodup_keys_setA _ _ _ hnd

theorem getA_mapVal {α β : Type} (f : α → β) (m : List (String × α)) (k : String) :
    getA (m.map (fun p => (p.1, f p.2))) k = (getA m k).map f := by
  induction m with
  | nil => rfl
  | cons p rest ih =>
    obtain ⟨pk, pv⟩ := p
    by_cases h : pk = k <;> simp [getA, h, ih]

theorem getA_of_mem_nodup {α : Type} {m : List (String × α)} {k : String} {v : α}
    (hmem : (k, v) ∈ m) (hnd : (m.map Prod.fst).Nodup) : getA m k = some v := by
  induction m with
  | nil => cases hmem
  | cons p rest ih =>
    obtain ⟨pk, pv⟩ := p
    simp only [List.map_cons, List.nodup_cons] at hnd
    rcases List.mem_cons.mp hmem with h | h
    · injection h with h1 h2
      subst h1
      subst h2
      simp [getA]
    · have : ¬ pk = k := by
        intro hk
        subst hk
        exact hnd.1 (List.mem_map.mpr ⟨(pk, v), h, rfl⟩)
      simp [getA, this, ih h hnd.2]

/-- Combine the samples already collected for a key with the samples still
to come: nothing to add keeps the bucket (possibly absent), otherwise the
bucket exists and ends with the new samples. -/
def optSamples {α : Type} (o : Option (List α)) (new : List α) : Option (List α) :=
  match new with
  | [] => o
  | _ :: _ => some (o.getD [] ++ new)

theorem optSamples_pushSample {α : Type} (acc : List (String × List α)) (k : String)
    (d : α) (S : List α) :
    optSamples (getA (pushSample acc k d) k) S = optSamples (getA acc k) (d :: S) := by
  rw [getA_pushSample_self]
  cases S <;> cases h : getA acc k <;> simp [optSamples, h]

/-! ### Spec-side scan definitions

These follow the wording of the specification rather than the source, and
are compared with the source embeddings in the refinement theorems. -/

/-- The dwell pairing described by the spec: walk the events in order
keeping one pending press timestamp per key; a Press stores (or, for a
key with a pending press, overwrites — last-press-wins) the pending
timestamp of its key; a Release with a pending press for its key emits
the sample release time minus press time and clears the pending entry; a
Release without one is dropped. -/
def specDwellSamples : (String → Option Int) → List KeyEvent → List (String × Int)
  | _, [] => []
  | pending, e :: rest =>
    match e.kind with
    | EvKind.keydown =>
      specDwellSamples (Function.update pending e.key (some e.timestamp)) rest
    | EvKind.keyup =>
      match pending e.key with
      | some t =>
        (e.key, e.timestamp - t) :: specDwellSamples (Function.update pending e.key none) rest
      | none => specDwellSamples pending rest

/-- The flight scan described by the spec: walk the events in order
remembering only the last Release timestamp; each Press that follows at
least one Release emits press time minus last release time under the
arriving key; only Release events update the remembered timestamp. -/
def specFlightSamples : Option Int → List KeyEvent → List (String × Int)
  | _, [] => []
  | lastRelease, e :: rest =>
    match e.kind with
    | EvKind.keyup => specFlightSamples (some e.timestamp) rest
    | EvKind.keydown =>
      match lastRelease with
      | some t => (e.key, e.timestamp - t) :: specFlightSamples lastRelease rest
      | none => specFlightSamples lastRelease rest

theorem dwell_fold_getA (events : List KeyEvent) :
    ∀ (acc : List (String × List Int)) (pa : List (String × Int))
      (p : String → Option Int),
      (pa.map Prod.fst).Nodup →
      (∀ k0, getA pa k0 = p k0) →
      ∀ k, getA ((events.foldl dwellStep ⟨acc, pa⟩).dwellTimes) k =
        optSamples (getA acc k)
          (((specDwellSamples p events).filter (fun q => q.1 == k)).map Prod.snd) := by
  induction events with
  | nil =>
    intro acc pa p hnd hp k
    simp [specDwellSamples, optSamples]
  | cons e rest ih =>
    intro acc pa p hnd hp k
    obtain ⟨ekind, ekey, ets, erel, eci, eec⟩ := e
    rw [List.foldl_cons]
    cases ekind with
    | keydown =>
      have hp' : ∀ k0, getA (setA pa ekey ets) k0 =
          Function.update p ekey (some ets) k0 := by
        intro k0
        rw [getA_setA]
        by_cases h : ekey = k0
        · subst h
          simp
        · rw [if_neg h, Function.update_noteq (fun hh => h hh.symm), hp]
      exact ih acc (setA pa ekey ets) (Function.update p ekey (some ets))
        (nodup_keys_setA pa ekey ets hnd) hp' k
    | keyup =>
      cases hpk : p ekey with
      | some t =>
        have hgk : getA pa ekey = some t := by rw [hp]; exact hpk
        have hstep : dwellStep ⟨acc, pa⟩ ⟨EvKind.keyup, ekey, ets, erel, eci, eec⟩ =
            ⟨pushSample acc ekey (ets - t), delA pa ekey⟩ := by
          simp only [dwellStep, hgk]
        have hp' : ∀ k0, getA (delA pa ekey) k0 = Function.update p ekey none k0 := by
          intro k0
          rw [getA_delA pa ekey k0 hnd]
          by_cases h : ekey = k0
          · subst h
            simp
          · rw [if_neg h, Function.update_noteq (fun hh => h hh.symm), hp]
        have hspec : specDwellSamples p (⟨EvKind.keyup, ekey, ets, erel, eci, eec⟩ :: rest) =
            (ekey, ets - t) :: specDwellSamples (Function.update p ekey none) rest := by
          simp only [specDwellSamples, hpk]
        rw [hstep, ih _ _ _ (nodup_keys_delA pa ekey hnd) hp' k, hspec]
        by_cases hk : ekey = k
        · subst hk
          rw [List.filter_cons, if_pos (by simp), List.map_cons]
          exact optSamples_pushSample acc ekey (ets - t) _
        · rw [List.filter_cons, if_neg (by simp [hk]), getA_pushSample_ne acc ekey k _ hk]
      | none =>
        have hgk : getA pa ekey = none := by rw [hp]; exact hpk
        have hstep : dwellStep ⟨acc, pa⟩ ⟨EvKind.keyup, ekey, ets, erel, eci, eec⟩ =
            ⟨acc, pa⟩ := by
          simp only [dwellStep, hgk]
        have hspec : specDwellSamples p (⟨EvKind.keyup, ekey, ets, erel, eci, eec⟩ :: rest) =
            specDwellSamples p rest := by
          simp only [specDwellSamples, hpk]
        rw [hstep, ih acc pa p hnd hp k, hspec]

/-! ### Claim theorems for the analytics engine -/

/-- C5: for every event sequence, the per-key dwell result agrees with the
spec-side pairing discipline (next Release of the same key, one pending
press per key, last-press-wins on double Press, unmatched Release
dropped, sample = release time minus press time) aggregated to the
arithmetic mean per key; and the concrete pair press 1000 / release 1150
yields the single sample 150. -/
theorem C5_dwell_time_by_key :
    (∀ (events : List KeyEvent) (k : String),
      getA (calculateDwellTimeByKey events) k =
        Option.map meanI (optSamples none
          (((specDwellSamples (fun _ => none) events).filter
            (fun q => q.1 == k)).map Prod.snd))) ∧
    calculateDwellTimeByKey
      [⟨EvKind.keydown, "a", 1000, 0, 0, "a"⟩, ⟨EvKind.keyup, "a", 1150, 150, 0, "a"⟩] =
      [("a", 150)] := by
  constructor
  · intro events k
    unfold calculateDwellTimeByKey
    rw [getA_mapVal, dwell_fold_getA events [] [] (fun _ => none) (by simp) (fun _ => rfl) k]
    rfl
  · have h : calculateDwellTimeByKey
        [⟨EvKind.keydown, "a", 1000, 0, 0, "a"⟩, ⟨EvKind.keyup, "a", 1150, 150, 0, "a"⟩] =
        [("a", meanI [150])] := rfl
    rw [h]
    norm_num [meanI]

theorem flight_fold_getA (events : List KeyEvent) :
    ∀ (acc : List (String × List Int)) (lastUp : Option Int) (lastKey : Option String),
      lastKey.isSome = lastUp.isSome →
      ∀ k, getA ((events.foldl flightStep ⟨acc, lastUp, lastKey⟩).flightTimes) k =
        optSamples (getA acc k)
          (((specFlightSamples lastUp events).filter (fun q => q.1 == k)).map Prod.snd) := by
  induction events with
  | nil =>
    intro acc lastUp lastKey hsame k
    simp [specFlightSamples, optSamples]
  | cons e rest ih =>
    intro acc lastUp lastKey hsame k
    obtain ⟨ekind, ekey, ets, erel, eci, eec⟩ := e
    rw [List.foldl_cons]
    cases ekind with
    | keyup =>
      exact ih acc (some ets) (some ekey) rfl k
    | keydown =>
      cases lastUp with
      | some t =>
        cases lastKey with
        | some lk =>
          rw [show flightStep ⟨acc, some t, some lk⟩
                ⟨EvKind.keydown, ekey, ets, erel, eci, eec⟩ =
              ⟨pushSample acc ekey (ets - t), some t, some lk⟩ from rfl]
          rw [ih (pushSample acc ekey (ets - t)) (some t) (some lk) rfl k]
          rw [show specFlightSamples (some t) (⟨EvKind.keydown, ekey, ets, erel, eci, eec⟩ :: rest) =
              (ekey, ets - t) :: specFlightSamples (some t) rest from rfl]
          by_cases hk : ekey = k
          · subst hk
            rw [List.filter_cons, if_pos (by simp), List.map_cons]
            exact optSamples_pushSample acc ekey (ets - t) _
          · rw [List.filter_cons, if_neg (by simp [hk]),
                getA_pushSample_ne acc ekey k _ hk]
        | none => simp at hsame
      | none =>
        cases lastKey with
        | some lk => simp at hsame
        | none => exact ih acc none none rfl k

/-- C6: for every event sequence, the per-key flight result agrees with
the spec-side scan (the last-release timestamp is updated only on Release
events; each Press following at least one Release contributes press time
minus last release time, bucketed under the arriving key) aggregated to
the arithmetic mean per key; and the concrete pair release k1 at 1100,
press k2 at 1180 yields the single sample 80 attributed to k2. -/
theorem C6_flight_time_by_key :
    (∀ (events : List KeyEvent) (k : String),
      getA (calculateFlightTimeByKey events) k =
        Option.map meanI (optSamples none
          (((specFlightSamples none events).filter
            (fun q => q.1 == k)).map Prod.snd))) ∧
    calculateFlightTimeByKey
      [⟨EvKind.keyup, "k1", 1100, 0, 0, ""⟩, ⟨EvKind.keydown, "k2", 1180, 0, 0, ""⟩] =
      [("k2", 80)] := by
  constructor
  · intro events k
    unfold calculateFlightTimeByKey
    rw [getA_mapVal, flight_fold_getA events [] none none rfl k]
    rfl
  · have h : calculateFlightTimeByKey
        [⟨EvKind.keyup, "k1", 1100, 0, 0, ""⟩, ⟨EvKind.keydown, "k2", 1180, 0, 0, ""⟩] =
        [("k2", meanI [80])] := rfl
    rw [h]
    norm_num [meanI]

theorem finger_fold_getA (fl : String → Option String) (byKey : List (String × ℚ)) :
    ∀ (acc : List (String × List ℚ)) (f : String),
      getA (byKey.foldl (fingerFold fl) acc) f =
        optSamples (getA acc f)
          ((byKey.filter (fun p => getFingerForKey fl p.1 == some f)).map Prod.snd) := by
  induction byKey with
  | nil =>
    intro acc f
    simp [optSamples]
  | cons p rest ih =>
    intro acc f
    obtain ⟨pk, pv⟩ := p
    rw [List.foldl_cons]
    cases hf : getFingerForKey fl pk with
    | some finger =>
      have hstep : fingerFold fl acc (pk, pv) = pushSample acc finger pv := by
        simp only [fingerFold, hf]
      rw [hstep, ih]
      by_cases hfk : finger = f
      · subst hfk
        rw [List.filter_cons, if_pos (by simp [hf]), List.map_cons]
        exact optSamples_pushSample acc finger pv _
      · rw [List.filter_cons, if_neg (by simp [hf, hfk]),
            getA_pushSample_ne acc finger f _ hfk]
    | none =>
      have hstep : fingerFold fl acc (pk, pv) = acc := by
        simp only [fingerFold, hf]
      rw [hstep, ih, List.filter_cons, if_neg (by simp [hf])]

/-- The concrete two-key finger table of the C7 instance: the keys a and b
both map to the finger F. -/
def c7Lookup : String → Option String := fun k =>
  if k = "a" ∨ k = "b" then some "F" else none

/-- C7: for both the dwell and the flight per-finger views and every
per-key input, the value reported for a finger is the unweighted
arithmetic mean of the per-key values of the keys mapping to that finger
(a mean of per-key means once composed with the by-key views, not a
weighted mean of raw samples); concretely, per-key means 10 and 20 on two
keys of one finger yield 15 for that finger in both views. -/
theorem C7_finger_mean_of_means :
    (∀ (fl : String → Option String) (byKey : List (String × ℚ)) (f : String),
      getA (calculateDwellTimeByFinger fl byKey) f =
        Option.map meanQ (optSamples none
          ((byKey.filter (fun p => getFingerForKey fl p.1 == some f)).map Prod.snd))) ∧
    (∀ (fl : String → Option String) (byKey : List (String × ℚ)) (f : String),
      getA (calculateFlightTimeByFinger fl byKey) f =
        Option.map meanQ (optSamples none
          ((byKey.filter (fun p => getFingerForKey fl p.1 == some f)).map Prod.snd))) ∧
    calculateDwellTimeByFinger c7Lookup [("a", 10), ("b", 20)] = [("F", 15)] ∧
    calculateFlightTimeByFinger c7Lookup [("a", 10), ("b", 20)] = [("F", 15)] := by
  refine ⟨?_, ?_, ?_, ?_⟩
  · intro fl byKey f
    unfold calculateDwellTimeByFinger
    rw [getA_mapVal, finger_fold_getA fl byKey [] f]
    rfl
  · intro fl byKey f
    unfold calculateFlightTimeByFinger
    rw [getA_mapVal, finger_fold_getA fl byKey [] f]
    rfl
  · have h : calculateDwellTimeByFinger c7Lookup [("a", 10), ("b", 20)] =
        [("F", meanQ [10, 20])] := rfl
    rw [h]
    norm_num [meanQ]
  · have h : calculateFlightTimeByFinger c7Lookup [("a", 10), ("b", 20)] =
        [("F", meanQ [10, 20])] := rfl
    rw [h]
    norm_num [meanQ]

theorem nodup_keys_pushDigraph (fl : String → Option String)
    (m : List (String × DigraphData)) (lc cc : String) (ft : Int)
    (h : (m.map Prod.fst).Nodup) :
    ((pushDigraph fl m lc cc ft).map Prod.fst).Nodup := by
  unfold pushDigraph
  cases getA m (lc ++ cc) <;> exact nodup_keys_setA _ _ _ h

theorem digraphStep_times (fl : String → Option String)
    (cs : Option (List CharState)) (st : DigraphAcc) (e : KeyEvent) :
    (digraphStep fl cs st e).digraphTimes = st.digraphTimes ∨
    ∃ lc cc ft, (digraphStep fl cs st e).digraphTimes =
      pushDigraph fl st.digraphTimes lc cc ft := by
  obtain ⟨times, lastUp, lastChar⟩ := st
  obtain ⟨ekind, ekey, ets, erel, eci, eec⟩ := e
  cases ekind with
  | keydown =>
    cases lastUp <;> cases lastChar <;>
      dsimp only [digraphStep] <;> split_ifs <;>
      first
        | exact Or.inl rfl
        | exact Or.inr ⟨_, _, _, rfl⟩
  | keyup =>
    dsimp only [digraphStep]
    split_ifs <;> exact Or.inl rfl

theorem digraphCollect_keys_nodup (fl : String → Option String)
    (events : List KeyEvent) (charStates : Option (List CharState)) :
    ((digraphCollect fl events charStates).map Prod.fst).Nodup := by
  suffices h : ∀ st : DigraphAcc, (st.digraphTimes.map Prod.fst).Nodup →
      (((events.foldl (digraphStep fl charStates) st).digraphTimes).map Prod.fst).Nodup by
    exact h ⟨[], none, none⟩ (by simp)
  induction events with
  | nil => intro st h; exact h
  | cons e rest ih =>
    intro st h
    rw [List.foldl_cons]
    refine ih _ ?_
    rcases digraphStep_times fl charStates st e with heq | ⟨lc, cc, ft, heq⟩
    · rw [heq]; exact h
    · rw [heq]; exact nodup_keys_pushDigraph fl _ lc cc ft h

/-- The ledger of the C8 instance: three positions expecting the letter
b. -/
def c8CharStates : List CharState :=
  [⟨"b", none, "pending"⟩, ⟨"b", none, "pending"⟩, ⟨"b", none, "pending"⟩]

/-- The events of the C8 instance: three presses of b separated by
releases, producing the bb digraph twice with latencies 90 - 10 = 80 and
220 - 100 = 120. -/
def c8Events : List KeyEvent :=
  [⟨EvKind.keydown, "b", 0, 0, 0, "b"⟩,
   ⟨EvKind.keyup, "b", 10, 0, 0, "b"⟩,
   ⟨EvKind.keydown, "b", 90, 0, 1, "b"⟩,
   ⟨EvKind.keyup, "b", 100, 0, 1, "b"⟩,
   ⟨EvKind.keydown, "b", 220, 0, 2, "b"⟩]

/-- C8: for every input, the digraph latency result is sorted in
descending order of mean latency, it consists of exactly the rows of the
collected pair table, and each row carries the arithmetic mean of its
pair latency samples as mean and their number as count; the concrete
input producing two samples 80 and 120 of the pair bb yields exactly one
row with mean 100 and count 2. -/
theorem C8_digraph_latency :
    (∀ (fl : String → Option String) (events : List KeyEvent)
        (charStates : Option (List CharState)),
      List.Sorted (fun a b => b.avgLatency ≤ a.avgLatency)
        (calculateDigraphLatency fl events charStates)) ∧
    (∀ (fl : String → Option String) (events : List KeyEvent)
        (charStates : Option (List CharState)),
      List.Perm (calculateDigraphLatency fl events charStates)
        ((digraphCollect fl events charStates).map mkDigraphStat)) ∧
    (∀ (fl : String → Option String) (events : List KeyEvent)
        (charStates : Option (List CharState)) (d : DigraphStat),
      d ∈ calculateDigraphLatency fl events charStates →
      ∃ data, getA (digraphCollect fl events charStates) d.pair = some data ∧
        d.avgLatency = meanI data.times ∧ d.count = data.times.length) ∧
    calculateDigraphLatency (fun _ => none) c8Events (some c8CharStates) =
      [⟨"bb", "b", "b", 100, 2, none, none, false⟩] := by
  refine ⟨?_, ?_, ?_, ?_⟩
  · intro fl events cs
    exact List.sorted_insertionSort latencyDescending _
  · intro fl events cs
    exact List.perm_insertionSort latencyDescending _
  · intro fl events cs d hd
    have hd' : d ∈ (digraphCollect fl events cs).map mkDigraphStat :=
      (List.Perm.mem_iff (List.perm_insertionSort latencyDescending _)).mp hd
    obtain ⟨p, hp, rfl⟩ := List.mem_map.mp hd'
    obtain ⟨pk, pdata⟩ := p
    exact ⟨pdata, getA_of_mem_nodup hp (digraphCollect_keys_nodup fl events cs), rfl, rfl⟩
  · have h : calculateDigraphLatency (fun _ => none) c8Events (some c8CharStates) =
        [⟨"bb", "b", "b", meanI [80, 120], 2, none, none, false⟩] := rfl
    rw [h]
    norm_num [meanI]

/-- Witness for the membership part of C8 (the only part of its statement
with a hypothesis), at the concrete C8 instance and its single row. -/
theorem C8_digraph_latency_witness :
    ∃ data, getA (digraphCollect (fun _ => none) c8Events (some c8CharStates))
        (DigraphStat.pair ⟨"bb", "b", "b", 100, 2, none, none, false⟩) = some data ∧
      DigraphStat.avgLatency ⟨"bb", "b", "b", 100, 2, none, none, false⟩ = meanI data.times ∧
      DigraphStat.count ⟨"bb", "b", "b", 100, 2, none, none, false⟩ = data.times.length :=
  C8_digraph_latency.2.2.1 (fun _ => none) c8Events (some c8CharStates)
    ⟨"bb", "b", "b", 100, 2, none, none, false⟩
    (by rw [C8_digraph_latency.2.2.2]; exact List.mem_singleton.mpr rfl)

/-- C9: the analytics entry point rejects a record whose events field is
missing or not a sequence with an error, before any view is computed; and
on a record with a well-formed events sequence but no charStates ledger
it succeeds, with the two charStates-dependent views (error confusion
matrix and rhythm series) absent instead of failing. -/
theorem C9_entry_validation :
    (∀ (fl : String → Option String) (d : SessionData), d.events = none →
      analyzeData fl d =
        Except.error "Invalid session data format: missing or invalid events array") ∧
    (∀ (fl : String → Option String) (d : SessionData) (events : List KeyEvent),
      d.events = some events → d.charStates = none →
      Except.map (fun r => (r.errorConfusionMatrix, r.rhythmData)) (analyzeData fl d) =
        Except.ok (none, none)) := by
  constructor
  · intro fl d h
    unfold analyzeData
    rw [h]
  · intro fl d events he hc
    unfold analyzeData
    rw [he, hc]
    rfl

/-- Witness for C9: a record with no events sequence is rejected, and a
record with an empty events sequence but no charStates ledger succeeds
with both charStates-dependent views absent. -/
theorem C9_entry_validation_witness :
    analyzeData (fun _ => none) ⟨none, none⟩ =
      Except.error "Invalid session data format: missing or invalid events array" ∧
    Except.map (fun r => (r.errorConfusionMatrix, r.rhythmData))
      (analyzeData (fun _ => none) ⟨some [], none⟩) = Except.ok (none, none) :=
  ⟨C9_entry_validation.1 (fun _ => none) ⟨none, none⟩ rfl,
   C9_entry_validation.2 (fun _ => none) ⟨some [], none⟩ [] rfl rfl⟩

end TyprOmicron
